import Mathlib

/-!
# Schedulify timetable generation engine — verification development

Shallow embedding of the two-phase timetable generation engine:
* `timetable/models.py` — grid constants and entity records;
* `timetable/utils.py` — `get_teacher_subject_division_mapping`, the assignment
  phase (pre-solve infeasibility check + ILP hand-off, the external `pulp`
  solver being modelled as an explicit oracle parameter);
* `timetable/timetablegenerator.py` — availability access, session expansion,
  the recursive backtracking placement search `try_allocate`, and the driver
  `generate_timetable`.

Modelling conventions:
* Pandas dataframes indexed by entity id with an `availability` string column
  become association lists `List (Nat × List Bool)`; the character `'1'`
  becomes `true`.
* Wall-clock time is an explicit oracle `clock : Nat → Nat` read once per
  `try_allocate` entry (the code's global call counter indexes the readings);
  `timeout = 0` plays the role of Python's falsy `None`/`0`.
* Expected Python exceptions are `Except` errors (`TimeoutError` raised by
  `try_allocate` becomes `Except.error .timeoutErr`).
* The recursion of `try_allocate` is driven by an explicit fuel equal to the
  number of assignments still to place plus one; the Python recursion depth is
  exactly that, so the fuel-exhausted branch is unreachable from the wrapper.
-/

namespace Schedulify

/-- `models.py`: `TIME_SLOTS = 48`. -/
def TIME_SLOTS : Nat := 48

/-- `models.py`: `MAXIMUM_WORK_LOAD = 18`. -/
def MAXIMUM_WORK_LOAD : Nat := 18

/-- `timetablegenerator.py`: `WORKDAY_COUNT = 6`. -/
def WORKDAY_COUNT : Nat := 6

/-- Session kinds: `SINGLE_SLOT = "Lecture"`, `DOUBLE_SLOT = "Lab"`. -/
inductive SessionType where
  | single
  | double
  deriving DecidableEq

/-- An expanded session instance, the 4-tuple
`(teacher_id, subject_id, division_id, session_type)` appended to
`assignments` in `generate_timetable`. -/
structure Assign where
  teacher : Nat
  subject : Nat
  division : Nat
  session : SessionType
  deriving DecidableEq

/-- A placement, the 6-tuple
`(teacher_id, subject_id, division_id, slot, room_id, session_type)` built by
`try_allocate`. -/
structure Alloc where
  teacher : Nat
  subject : Nat
  division : Nat
  slot : Nat
  room : Nat
  session : SessionType
  deriving DecidableEq

/-- A dataframe holding one availability string per entity id
(first occurrence of an id wins, as a pandas unique index). -/
abbrev Table := List (Nat × List Bool)

/-- The id column of a dataframe (`df.index`). -/
def Table.ids (df : Table) : List Nat := df.map (·.1)

/-- `is_available(df, entity_id, slot)`:
`df.at[entity_id, 'availability'][slot] == '1'`.
A missing id or an out-of-range slot reads as `false`
(Python would raise there; inside the search all reads are in range for ids
present in the run's tables, and an unavailable slot is never used). -/
def is_available (df : Table) (entity_id slot : Nat) : Bool :=
  ((List.lookup entity_id df).getD []).getD slot false

/-- `set_availability(df, entity_id, slot, available)`: rewrite one character
of the entity's availability string.  Only the first row with the given id is
touched (a pandas unique-index scalar write); a missing id or an out-of-range
slot leaves the table unchanged (Python would raise there; unreachable from
the search). -/
def set_availability : Table → Nat → Nat → Bool → Table
  | [], _, _, _ => []
  | e :: rest, entity_id, slot, available =>
    if e.1 = entity_id then (e.1, e.2.set slot available) :: rest
    else e :: set_availability rest entity_id slot available

/-- `same_subject_in_day_exists`: some already-accumulated placement of the
same (division, subject) falls on the same day, day := `slot % WORKDAY_COUNT`.
The `session_type` parameter is accepted and ignored, as in the source. -/
def same_subject_in_day_exists (division_id subject_id slot : Nat)
    (session_type : SessionType) (current_allocations : List Alloc) : Bool :=
  let _ := session_type
  let day := slot % WORKDAY_COUNT
  current_allocations.any fun p =>
    p.division == division_id && p.subject == subject_id &&
      p.slot % WORKDAY_COUNT == day

/-- The three mutable availability dataframes threaded through the search. -/
structure AvailState where
  teachers : Table
  classrooms : Table
  divisions : Table
  deriving DecidableEq

/-- The candidate `(violates_soft, slot, room_id)` list built by the
slot/room loops of `try_allocate` (lines 73–99). -/
def candidate_slots (a : Assign) (st : AvailState)
    (current_allocations : List Alloc) : List (Bool × Nat × Nat) :=
  (List.range TIME_SLOTS).flatMap fun slot =>
    if !is_available st.teachers a.teacher slot then []
    else if !is_available st.divisions a.division slot then []
    else
      match a.session with
      | .single =>
        st.classrooms.ids.flatMap fun room_id =>
          if !is_available st.classrooms room_id slot then []
          else [(same_subject_in_day_exists a.division a.subject slot a.session
                  current_allocations, slot, room_id)]
      | .double =>
        if !((slot / WORKDAY_COUNT) % 2 == 0) || slot + WORKDAY_COUNT ≥ TIME_SLOTS then []
        else if !is_available st.teachers a.teacher (slot + WORKDAY_COUNT) then []
        else if !is_available st.divisions a.division (slot + WORKDAY_COUNT) then []
        else
          st.classrooms.ids.flatMap fun room_id =>
            if !(is_available st.classrooms room_id slot &&
                  is_available st.classrooms room_id (slot + WORKDAY_COUNT)) then []
            else [(same_subject_in_day_exists a.division a.subject slot a.session
                    current_allocations, slot, room_id)]

/-- `candidate_slots.sort(key=lambda x: x[0])`: Python `list.sort` is stable,
and a stable sort by a Boolean key is exactly the stable partition keeping the
`false`-keyed elements (in their original order) before the `true`-keyed ones. -/
def sortByFlag (l : List (Bool × Nat × Nat)) : List (Bool × Nat × Nat) :=
  l.filter (fun c => !c.1) ++ l.filter (fun c => c.1)

/-- The block of `set_availability` calls marking (`available = false`,
lines 104–110) or rolling back (`available = true`, lines 119–125) the
slot(s) a candidate occupies: teacher, division and classroom at `slot`, and
for a `DOUBLE` session also at `slot + WORKDAY_COUNT`. -/
def occupy (st : AvailState) (a : Assign) (slot room_id : Nat)
    (available : Bool) : AvailState :=
  let st1 : AvailState :=
    { teachers := set_availability st.teachers a.teacher slot available
      divisions := set_availability st.divisions a.division slot available
      classrooms := set_availability st.classrooms room_id slot available }
  match a.session with
  | .single => st1
  | .double =>
    { teachers := set_availability st1.teachers a.teacher (slot + WORKDAY_COUNT) available
      divisions := set_availability st1.divisions a.division (slot + WORKDAY_COUNT) available
      classrooms := set_availability st1.classrooms room_id (slot + WORKDAY_COUNT) available }

/-- The placement built from a session instance and a chosen candidate. -/
def mkAlloc (a : Assign) (slot room_id : Nat) : Alloc :=
  ⟨a.teacher, a.subject, a.division, slot, room_id, a.session⟩

/-- The time slots a placement occupies: its slot, and for a `DOUBLE`
session also `slot + WORKDAY_COUNT`. -/
def Alloc.slots (p : Alloc) : List Nat :=
  match p.session with
  | .single => [p.slot]
  | .double => [p.slot, p.slot + WORKDAY_COUNT]

/-- Two placements never occupy the same (slot, teacher) pair, the same
(slot, division) pair, or the same (slot, classroom) pair, a `DOUBLE`
placement counting at both of its slots. -/
def no_resource_clash (p q : Alloc) : Prop :=
  (p.teacher = q.teacher → ∀ s ∈ p.slots, s ∉ q.slots) ∧
  (p.division = q.division → ∀ s ∈ p.slots, s ∉ q.slots) ∧
  (p.room = q.room → ∀ s ∈ p.slots, s ∉ q.slots)

/-- The teacher, division and classroom of a placement are all free, in the
given availability state, at every slot the placement occupies. -/
def AllocFree (st : AvailState) (p : Alloc) : Prop :=
  (∀ s ∈ p.slots, is_available st.teachers p.teacher s = true) ∧
  (∀ s ∈ p.slots, is_available st.divisions p.division s = true) ∧
  (∀ s ∈ p.slots, is_available st.classrooms p.room s = true)

/-- Expected Python exceptions of the engine. -/
inductive PyExc where
  | timeoutErr
  deriving DecidableEq

/-- Outcome of one `try_allocate` call: an exception, or
(`None` / a placement list, the availability state on return, the updated
global call counter). -/
abbrev TAResult := Except PyExc (Option (List Alloc) × AvailState × Nat)

/-- Parameters of the search that are fixed across the recursion. -/
structure SearchEnv where
  assignments : List Assign
  clock : Nat → Nat
  start_time : Nat
  timeout : Nat

/-- Body of the candidate loop of `try_allocate` (lines 103–125), one
candidate step as a `foldl` accumulator transformer.  Once the accumulator is
a success or an exception the remaining candidates are skipped, which is
Python's early `return`. `rec` is the recursive call at the next assignment
index. -/
def cand_step (a : Assign) (rec : AvailState → List Alloc → Nat → TAResult)
    (current_allocations : List Alloc) (acc : TAResult)
    (c : Bool × Nat × Nat) : TAResult :=
  match acc with
  | .ok (none, st0, n0) =>
    let slot := c.2.1
    let room_id := c.2.2
    let st1 := occupy st0 a slot room_id false
    let alloc := mkAlloc a slot room_id
    match rec st1 (current_allocations ++ [alloc]) n0 with
    | .ok (some result, st2, n2) => .ok (some (result ++ [alloc]), st2, n2)
    | .ok (none, st2, n2) => .ok (none, occupy st2 a slot room_id true, n2)
    | .error e => .error e
  | done => done

/-- Fuel-indexed body of `try_allocate`.  At every reachable call
`fuel = assignments.length + 1 - assignment_index`, so the fuel-exhausted
branch is never taken (the Python recursion depth is bounded by the number of
assignments).  Per call: read the clock (entry `n` of the reading sequence,
matching the global iteration counter), raise `TimeoutError` past the budget,
succeed with `[]` when no assignments remain, otherwise fold the candidate
loop over the sorted candidate list. -/
def try_allocate_go (env : SearchEnv) :
    Nat → Nat → AvailState → List Alloc → Nat → TAResult
  | 0, _, st, _, n => .ok (none, st, n)
  | fuel + 1, assignment_index, st, current_allocations, n =>
    if env.timeout ≠ 0 ∧ env.clock n - env.start_time > env.timeout then
      .error .timeoutErr
    else if h : assignment_index < env.assignments.length then
      let a := env.assignments.get ⟨assignment_index, h⟩
      (sortByFlag (candidate_slots a st current_allocations)).foldl
        (cand_step a
          (fun st1 cur1 n1 =>
            try_allocate_go env fuel (assignment_index + 1) st1 cur1 n1)
          current_allocations)
        (.ok (none, st, n + 1))
    else .ok (some [], st, n + 1)

/-- `try_allocate(assignment_index, assignments, teachers, classrooms,
divisions, current_allocations, start_time, timeout)`, plus the clock oracle
and the value `n` of the global call counter on entry. -/
def try_allocate (assignment_index : Nat) (assignments : List Assign)
    (teachers classrooms divisions : Table) (current_allocations : List Alloc)
    (start_time timeout : Nat) (clock : Nat → Nat) (n : Nat) : TAResult :=
  try_allocate_go ⟨assignments, clock, start_time, timeout⟩
    (assignments.length + 1 - assignment_index) assignment_index
    ⟨teachers, classrooms, divisions⟩ current_allocations n

/-! ## Entity snapshots (`models.py` rows as read by the engine) -/

/-- A `Teacher` row: id, `max_workload`, availability string. -/
structure TeacherRec where
  id : Nat
  max_workload : Nat
  availability : List Bool
  deriving DecidableEq

/-- A `Subject` row: id, `lectures_per_week`, `labs_per_week`. -/
structure SubjectRec where
  id : Nat
  lectures_per_week : Nat
  labs_per_week : Nat
  deriving DecidableEq

/-- A `Division` row: id, its subject ids (the `subjects` m2m), availability. -/
structure DivisionRec where
  id : Nat
  subjects : List Nat
  availability : List Bool
  deriving DecidableEq

/-- A `ClassRoom` row: id, availability string. -/
structure ClassroomRec where
  id : Nat
  availability : List Bool
  deriving DecidableEq

/-- A `Preference` row: teacher id, subject id, score, creation timestamp. -/
structure PrefRec where
  teacher : Nat
  subject : Nat
  score : Nat
  created_at : Nat
  deriving DecidableEq

/-- The point-in-time snapshot of the entity store that one generation run
reads (ids are assumed unique per entity kind, as database primary keys). -/
structure DBState where
  teachers : List TeacherRec
  subjects : List SubjectRec
  divisions : List DivisionRec
  classrooms : List ClassroomRec
  preferences : List PrefRec
  deriving DecidableEq

/-! ## Assignment phase (`utils.py`, `get_teacher_subject_division_mapping`) -/

/-- The `(subject, division)` pairs required, one per subject of each
division (`subj_div_pairs`). -/
def subj_div_pairs (db : DBState) : List (SubjectRec × DivisionRec) :=
  db.divisions.flatMap fun d =>
    (d.subjects.filterMap fun sid =>
      db.subjects.find? fun s => s.id == sid).map fun s => (s, d)

/-- `hours_per_subject`: lecture = 1 hour, lab = 2 hours. -/
def hours_per_subject (s : SubjectRec) : Nat :=
  s.lectures_per_week + 2 * s.labs_per_week

/-- `allowed_teachers_for_subject`: every teacher when `require_preference`
is false, otherwise only the teachers holding a `Preference` row for the
subject. -/
def allowed_teachers_for_subject (db : DBState) (require_preference : Bool)
    (sid : Nat) : List TeacherRec :=
  db.teachers.filter fun t =>
    !require_preference ||
      db.preferences.any fun p => p.teacher == t.id && p.subject == sid

/-- Structured content of the `infeasibility_reasons` strings: which subject
and division a "no available teachers" message names, and which figures a
capacity-shortfall message carries, plus the post-solve non-optimal message. -/
inductive InfeasibilityReason where
  | noTeachers (subject_id division_id : Nat)
  | capacityShort (available required : Nat)
  | solverFailed (status : String)
  deriving DecidableEq

/-- `total_required_hours`: hours summed over every (subject, division)
pair. -/
def total_required_hours (db : DBState) : Nat :=
  ((subj_div_pairs db).map fun sd => hours_per_subject sd.1).sum

/-- `total_available_hours = sum(t.max_workload for t in teachers)`. -/
def total_available_hours (db : DBState) : Nat :=
  (db.teachers.map (·.max_workload)).sum

/-- The pre-solve infeasibility check (`utils.py` lines 68–84): one
`noTeachers` reason per (subject, division) pair whose subject has zero
allowed teachers, then a `capacityShort` reason when total capacity is
strictly below total required hours. -/
def pre_solve_reasons (db : DBState) (require_preference : Bool) :
    List InfeasibilityReason :=
  ((subj_div_pairs db).filterMap fun sd =>
    if (allowed_teachers_for_subject db require_preference sd.1.id).isEmpty then
      some (.noTeachers sd.1.id sd.2.id)
    else none) ++
  (if total_available_hours db < total_required_hours db then
    [.capacityShort (total_available_hours db) (total_required_hours db)]
  else [])

/-- Per-subject entry of `subject_stats`. -/
structure SubjectStat where
  hours_needed : Nat
  hours_assigned : Nat
  shortage : Nat
  unused_capacity : Nat
  teachers_assigned_count : Nat
  divisions_needed : Nat
  deriving DecidableEq

/-- `total_divisions_per_subject[sid]`: how many (subject, division) pairs
need the subject. -/
def divisions_needing (db : DBState) (sid : Nat) : Nat :=
  ((subj_div_pairs db).filter fun sd => sd.1.id == sid).length

/-- `subject_stats` as computed on the infeasible short-circuit path
(`utils.py` lines 89–107): nothing assigned, shortage and unused capacity
against the summed capacity of the allowed teachers (`max(0, ·)` is `Nat`
truncated subtraction). -/
def infeasible_subject_stats (db : DBState) (require_preference : Bool) :
    List (Nat × SubjectStat) :=
  db.subjects.map fun s =>
    let hours_needed := hours_per_subject s * divisions_needing db s.id
    let hours_available :=
      ((allowed_teachers_for_subject db require_preference s.id).map
        (·.max_workload)).sum
    (s.id,
      { hours_needed
        hours_assigned := 0
        shortage := hours_needed - hours_available
        unused_capacity := hours_available - hours_needed
        teachers_assigned_count := 0
        divisions_needed := divisions_needing db s.id })

/-- Per-teacher entry of `teacher_stats`. -/
structure TeacherStat where
  workload : Nat
  unused_capacity : Nat
  max_workload : Nat
  deriving DecidableEq

/-- The external `pulp` solver as a black-box oracle: the read-back truth
value of each binary variable `x[t,s,d]`, and the reported status string. -/
structure SolverResult where
  assigned : Nat × Nat × Nat → Bool
  status : String

/-- The keys `(t.id, s.id, d.id)` of the decision variables `x`, in creation
order (`utils.py` lines 130–133): per (subject, division) pair, one variable
per allowed teacher. -/
def decision_keys (db : DBState) (require_preference : Bool) :
    List (Nat × Nat × Nat) :=
  (subj_div_pairs db).flatMap fun sd =>
    (allowed_teachers_for_subject db require_preference sd.1.id).map fun t =>
      (t.id, sd.1.id, sd.2.id)

/-- The solution parse (`utils.py` lines 186–188): the variable keys whose
read-back value is true, in `x.items()` (creation) order. -/
def parse_assignments (db : DBState) (require_preference : Bool)
    (sol : SolverResult) : List (Nat × Nat × Nat) :=
  (decision_keys db require_preference).filter fun k => sol.assigned k

/-- The exactly-one assignment constraints posted to the solver (`utils.py`
lines 140–144): for every (subject, division) pair, exactly one allowed
teacher's variable is set.  A status-`Optimal` read-back satisfies these. -/
def exactly_one_per_pair (db : DBState) (require_preference : Bool)
    (sol : SolverResult) : Prop :=
  ∀ sd ∈ subj_div_pairs db,
    ((allowed_teachers_for_subject db require_preference sd.1.id).countP
      fun t => sol.assigned (t.id, sd.1.id, sd.2.id)) = 1

/-- Hours of the subject with the given id (`hours_per_subject[s_id]`;
every id looked up comes from the snapshot's subjects). -/
def hours_of (db : DBState) (sid : Nat) : Nat :=
  (((db.subjects.find? fun s => s.id == sid).map hours_per_subject).getD 0)

/-- `lectures_per_week` of a subject id (`Subject.objects.get(id=...)`). -/
def lectures_of (db : DBState) (sid : Nat) : Nat :=
  (((db.subjects.find? fun s => s.id == sid).map (·.lectures_per_week)).getD 0)

/-- `labs_per_week` of a subject id. -/
def labs_of (db : DBState) (sid : Nat) : Nat :=
  (((db.subjects.find? fun s => s.id == sid).map (·.labs_per_week)).getD 0)

/-- `teacher_stats` on the solved path (`utils.py` lines 181–202). -/
def solved_teacher_stats (db : DBState)
    (assignments : List (Nat × Nat × Nat)) : List (Nat × TeacherStat) :=
  db.teachers.map fun t =>
    let w := ((assignments.filter fun k => k.1 == t.id).map fun k =>
      hours_of db k.2.1).sum
    (t.id, ⟨w, t.max_workload - w, t.max_workload⟩)

/-- `subject_stats` on the solved path (`utils.py` lines 204–222). -/
def solved_subject_stats (db : DBState) (require_preference : Bool)
    (assignments : List (Nat × Nat × Nat)) : List (Nat × SubjectStat) :=
  db.subjects.map fun s =>
    let needed := hours_per_subject s * divisions_needing db s.id
    let assigned :=
      ((assignments.filter fun k => k.2.1 == s.id).map fun _ =>
        hours_per_subject s).sum
    let available :=
      ((allowed_teachers_for_subject db require_preference s.id).map
        (·.max_workload)).sum
    (s.id,
      { hours_needed := needed
        hours_assigned := assigned
        shortage := needed - assigned
        unused_capacity := available - assigned
        teachers_assigned_count :=
          ((assignments.filter fun k => k.2.1 == s.id).map (·.1)).dedup.length
        divisions_needed := divisions_needing db s.id })

/-- Preference score of `(teacher, subject)`, falling back to
`preference_missing_score` (`pref_map.get(..., (missing, None))[0]`). -/
def score_of (db : DBState) (preference_missing_score tid sid : Nat) : Nat :=
  (((db.preferences.find? fun p => p.teacher == tid && p.subject == sid).map
    (·.score)).getD preference_missing_score)

/-- The assignment-phase output record (the fields of the returned dict the
engine's callers consume; reason strings carry their structured content). -/
structure LPOutput where
  solver_status : String
  infeasibility_reasons : List InfeasibilityReason
  assignments : List (Nat × Nat × Nat)
  subject_stats : List (Nat × SubjectStat)
  teacher_stats : List (Nat × TeacherStat)
  total_satisfaction : Nat
  deriving DecidableEq

/-- `get_teacher_subject_division_mapping(require_preference,
preference_missing_score, ...)`: run the pre-solve infeasibility check; on any
recorded reason short-circuit with status `'infeasible'`, an empty assignment
list and the per-subject breakdowns, never consulting the solver; otherwise
hand the ILP to the solver oracle and parse its read-back. -/
def get_teacher_subject_division_mapping (db : DBState) (sol : SolverResult)
    (require_preference : Bool) (preference_missing_score : Nat) : LPOutput :=
  let reasons := pre_solve_reasons db require_preference
  if reasons ≠ [] then
    { solver_status := "infeasible"
      infeasibility_reasons := reasons
      assignments := []
      subject_stats := infeasible_subject_stats db require_preference
      teacher_stats := db.teachers.map fun t =>
        (t.id, ⟨0, t.max_workload, t.max_workload⟩)
      total_satisfaction := 0 }
  else
    let assignments := parse_assignments db require_preference sol
    { solver_status := sol.status
      infeasibility_reasons :=
        if sol.status = "Optimal" then [] else [.solverFailed sol.status]
      assignments := assignments
      subject_stats := solved_subject_stats db require_preference assignments
      teacher_stats := solved_teacher_stats db assignments
      total_satisfaction :=
        (assignments.map fun k =>
          score_of db preference_missing_score k.1 k.2.1).sum }

/-! ## Driver (`timetablegenerator.py`, `generate_timetable`) -/

/-- `get_modifiable_entity_array(model_class, id_list)`: the availability
dataframe over either all rows or, when a non-empty id list is given, the
rows whose id is listed (Python's `if id_list:` treats `None` and `[]`
alike, so an empty list also means "all"). -/
def get_modifiable_entity_array (rows : List (Nat × List Bool))
    (id_list : Option (List Nat)) : Table :=
  match id_list with
  | some ids => if ids = [] then rows else rows.filter fun r => ids.contains r.1
  | none => rows

/-- The session-expansion loop of `generate_timetable` (lines 149–154): per
assignment triple, `lectures_per_week` SINGLE instances then `labs_per_week`
DOUBLE instances. -/
def expand_assignments (db : DBState)
    (assignments : List (Nat × Nat × Nat)) : List Assign :=
  assignments.flatMap fun k =>
    List.replicate (lectures_of db k.2.1) ⟨k.1, k.2.1, k.2.2, .single⟩ ++
    List.replicate (labs_of db k.2.1) ⟨k.1, k.2.1, k.2.2, .double⟩

/-- What one run leaves behind: the assignment-phase output it returns, and
the `TimetableEntry` batch written inside `transaction.atomic` (a fresh
`Timetable` row is created whenever this list is present, even when empty). -/
structure GenerateOutput where
  lp : LPOutput
  persisted_entries : List Alloc
  deriving DecidableEq

/-- `generate_timetable(timeout=5000, teacher_ids=None, classroom_ids=None,
division_ids=None)`.  The random shuffle of the expanded session list is the
injectable `shuffle` parameter; `sol` is the solver oracle; `clock` the
wall-clock oracle (`start_time` is its reading 0, the search reads from 1 on).
The code never consults `LP_output['solver_status']`: it expands whatever
assignment list came back, runs the placement search, returns `None`
(`.ok none`) when the search fails, lets `TimeoutError` escape, and otherwise
persists the entries and returns `LP_output`. -/
def generate_timetable (db : DBState) (sol : SolverResult)
    (shuffle : List Assign → List Assign) (clock : Nat → Nat)
    (timeout : Nat)
    (teacher_ids classroom_ids division_ids : Option (List Nat)) :
    Except PyExc (Option GenerateOutput) :=
  let start_time := clock 0
  let teachers := get_modifiable_entity_array
    (db.teachers.map fun t => (t.id, t.availability)) teacher_ids
  let classrooms := get_modifiable_entity_array
    (db.classrooms.map fun c => (c.id, c.availability)) classroom_ids
  let divisions := get_modifiable_entity_array
    (db.divisions.map fun d => (d.id, d.availability)) division_ids
  let LP_output := get_teacher_subject_division_mapping db sol true 0
  let assignments := shuffle (expand_assignments db LP_output.assignments)
  match try_allocate 0 assignments teachers classrooms divisions [] start_time
      timeout clock 1 with
  | .error e => .error e
  | .ok (none, _, _) => .ok none
  | .ok (some allocations, _, _) => .ok (some ⟨LP_output, allocations⟩)

/-! ## Python sequence indexing (availability access bounds, spec §4.1) -/

/-- Python read `s[i]` on a sequence: non-negative indices must be below the
length (else `IndexError`, here `none`); negative indices count from the end,
`s[i] = s[len(s) + i]` when `-len(s) ≤ i < 0`, and raise below that. -/
def py_index_read (s : List Bool) (i : Int) : Option Bool :=
  if 0 ≤ i then s.get? i.toNat
  else if i.natAbs ≤ s.length then s.get? (s.length - i.natAbs)
  else none

/-- Python write `s[i] = v` on a list (the `s[slot] = ...` step of
`set_availability`): same index rule as reads; `none` is `IndexError`. -/
def py_index_write (s : List Bool) (i : Int) (v : Bool) : Option (List Bool) :=
  if 0 ≤ i then
    if i.toNat < s.length then some (s.set i.toNat v) else none
  else if i.natAbs ≤ s.length then some (s.set (s.length - i.natAbs) v)
  else none

/-- `is_available` with Python's exact indexing behavior: `none` models the
raised `KeyError`/`IndexError`, `some b` a returned truth value. -/
def is_available_py (df : Table) (entity_id : Nat) (slot : Int) : Option Bool :=
  (List.lookup entity_id df).bind fun s => py_index_read s slot

/-- `set_availability` with Python's exact indexing behavior on the slot:
`none` models the raised exception, `some` the mutated table. -/
def set_availability_py (df : Table) (entity_id : Nat) (slot : Int)
    (available : Bool) : Option Table :=
  match df with
  | [] => none
  | e :: rest =>
    if e.1 = entity_id then
      (py_index_write e.2 slot available).map fun s => (e.1, s) :: rest
    else
      (set_availability_py rest entity_id slot available).map fun t => e :: t

/-! ## Concrete snapshots for counterexamples and witnesses -/

/-- A fully-open availability string (`BOTH_SHIFTS`). -/
def full_avail : List Bool := List.replicate TIME_SLOTS true

/-- A fully-busy availability string. -/
def no_avail : List Bool := List.replicate TIME_SLOTS false

/-- One teacher, one subject (one weekly lecture), one division needing it,
one classroom, and no preference rows: with `require_preference = true` the
subject has zero allowed teachers. -/
def db_no_pref : DBState :=
  { teachers := [⟨1, 10, full_avail⟩]
    subjects := [⟨1, 1, 0⟩]
    divisions := [⟨1, [1], full_avail⟩]
    classrooms := [⟨1, full_avail⟩]
    preferences := [] }

/-- One teacher with a preference for the single subject, and two divisions
both requiring that subject. -/
def db_two_divisions : DBState :=
  { teachers := [⟨1, 10, full_avail⟩]
    subjects := [⟨1, 1, 0⟩]
    divisions := [⟨1, [1], full_avail⟩, ⟨2, [1], full_avail⟩]
    classrooms := [⟨1, full_avail⟩]
    preferences := [⟨1, 1, 5, 0⟩] }

/-- A teacher with capacity 1 facing a subject worth 2 hours: total capacity
short of total demand. -/
def db_capacity_short : DBState :=
  { teachers := [⟨1, 1, full_avail⟩]
    subjects := [⟨1, 2, 0⟩]
    divisions := [⟨1, [1], full_avail⟩]
    classrooms := [⟨1, full_avail⟩]
    preferences := [⟨1, 1, 5, 0⟩] }

/-- A solver oracle setting every decision variable (on the concrete
snapshots above this is the unique assignment satisfying the exactly-one
constraints, so any correct backend returns it). -/
def sol_all : SolverResult := ⟨fun _ => true, "Optimal"⟩

/-- A solver oracle setting no variable (never consulted on infeasible
snapshots). -/
def sol_none : SolverResult := ⟨fun _ => false, "Optimal"⟩

instance (st : AvailState) (p : Alloc) : Decidable (AllocFree st p) := by
  unfold AllocFree
  infer_instance

instance (p q : Alloc) : Decidable (no_resource_clash p q) := by
  unfold no_resource_clash
  infer_instance

instance (db : DBState) (rp : Bool) (sol : SolverResult) :
    Decidable (exactly_one_per_pair db rp sol) := by
  unfold exactly_one_per_pair
  infer_instance

/-! ## Availability-table lemmas -/

/-- Writing back the truth value a position already holds is the identity. -/
theorem set_true_of_getD {l : List Bool} {i : Nat} (h : l.getD i false = true) :
    l.set i true = l := by
  induction l generalizing i with
  | nil => rfl
  | cons b t ih =>
    cases i with
    | zero => simpa [List.getD] using h.symm
    | succ j => simpa [List.set, List.getD] using ih (by simpa [List.getD] using h)

/-- `set_availability` leaves every other entity's row alone, and rewrites
the first row of the written entity pointwise. -/
theorem lookup_set_availability (df : Table) (e s : Nat) (v : Bool) (f : Nat) :
    List.lookup f (set_availability df e s v) =
      if f = e then (List.lookup e df).map fun str => str.set s v
      else List.lookup f df := by
  induction df with
  | nil => simp [set_availability]
  | cons hd t ih =>
    obtain ⟨k, str⟩ := hd
    by_cases he : k = e
    · subst he
      by_cases hf : f = k
      · subst hf; simp [set_availability, List.lookup]
      · simp [set_availability, List.lookup, hf, beq_eq_false_iff_ne.mpr hf]
    · by_cases hf : f = k
      · subst hf
        simp [set_availability, List.lookup, he, beq_eq_false_iff_ne.mpr (Ne.symm he)]
      · simp [set_availability, List.lookup, he, hf, beq_eq_false_iff_ne.mpr hf,
          beq_eq_false_iff_ne.mpr (Ne.symm he), ih]

/-- Reading a cell other than the one written sees the old table. -/
theorem is_available_set_ne {e s f u : Nat} (df : Table) (v : Bool)
    (h : f ≠ e ∨ u ≠ s) :
    is_available (set_availability df e s v) f u = is_available df f u := by
  rcases h with h | h
  · simp [is_available, lookup_set_availability, h]
  · by_cases hf : f = e
    · subst hf
      simp only [is_available, lookup_set_availability, if_pos rfl]
      cases hl : List.lookup f df with
      | none => rfl
      | some str => simp [List.getD_eq_getElem?_getD, List.getElem?_set_ne (Ne.symm h)]
    · simp [is_available, lookup_set_availability, hf]

/-- The written cell reads `false` after being marked busy. -/
theorem is_available_set_false_self (df : Table) (e s : Nat) :
    is_available (set_availability df e s false) e s = false := by
  simp only [is_available, lookup_set_availability, if_pos rfl]
  cases hl : List.lookup e df with
  | none => rfl
  | some str =>
    simp only [Option.map_some', Option.getD_some]
    rcases Nat.lt_or_ge s str.length with hs | hs
    · simp [List.getD_eq_getElem?_getD, List.getElem?_set_self', List.length_set, hs,
        List.getElem?_eq_getElem]
    · simp [List.getD_eq_getElem?_getD, List.getElem?_eq_none, List.length_set, hs]

/-- Marking a cell busy can only shrink availability. -/
theorem is_available_set_false_mono {df : Table} {e s f u : Nat}
    (h : is_available (set_availability df e s false) f u = true) :
    is_available df f u = true := by
  by_cases hfe : f = e
  · by_cases hus : u = s
    · subst hfe; subst hus
      rw [is_available_set_false_self] at h
      exact absurd h (by simp)
    · rwa [is_available_set_ne df false (Or.inr hus)] at h
  · rwa [is_available_set_ne df false (Or.inl hfe)] at h

/-- Rolling a marked cell back to `true` restores the table exactly,
provided the cell was available when it was marked. -/
theorem set_availability_rollback {df : Table} {e s : Nat}
    (h : is_available df e s = true) :
    set_availability (set_availability df e s false) e s true = df := by
  induction df with
  | nil => rfl
  | cons hd t ih =>
    obtain ⟨k, str⟩ := hd
    by_cases he : k = e
    · subst he
      have hstr : str.getD s false = true := by
        simpa [is_available, List.lookup, List.getD_eq_getElem?_getD] using h
      simp [set_availability, List.set_set, set_true_of_getD hstr]
    · have h' : is_available t e s = true := by
        simpa [is_available, List.lookup,
          beq_eq_false_iff_ne.mpr (Ne.symm he)] using h
      simp [set_availability, he, ih h']

/-- Writes to two different slots of the same entity commute. -/
theorem set_availability_comm_slot {s u : Nat} (df : Table) (e : Nat)
    (v w : Bool) (h : s ≠ u) :
    set_availability (set_availability df e s v) e u w =
      set_availability (set_availability df e u w) e s v := by
  induction df with
  | nil => rfl
  | cons hd t ih =>
    by_cases he : hd.1 = e
    · simp [set_availability, he, List.set_comm _ _ _ h]
    · simp [set_availability, he, ih]


/-! ## occupy lemmas -/

theorem slot_ne_plus_workday (slot : Nat) : slot ≠ slot + WORKDAY_COUNT :=
  Nat.ne_of_lt (Nat.lt_add_of_pos_right (by decide))

/-- Mark-then-rollback of a double placement restores a table exactly. -/
theorem set_rollback_double {df : Table} {e s : Nat}
    (h1 : is_available df e s = true)
    (h2 : is_available df e (s + WORKDAY_COUNT) = true) :
    set_availability (set_availability (set_availability (set_availability
      df e s false) e (s + WORKDAY_COUNT) false) e s true)
      e (s + WORKDAY_COUNT) true = df := by
  rw [set_availability_comm_slot (set_availability df e s false) e false true
      (Ne.symm (slot_ne_plus_workday s)),
    set_availability_rollback h1, set_availability_rollback h2]

/-- The rollback block undoes the marking block exactly, provided the marked
slots were available (which candidate generation guarantees). -/
theorem occupy_rollback {st : AvailState} {a : Assign} {slot room_id : Nat}
    (h : AllocFree st (mkAlloc a slot room_id)) :
    occupy (occupy st a slot room_id false) a slot room_id true = st := by
  obtain ⟨T, C, D⟩ := st
  obtain ⟨ht, hd, hc⟩ := h
  cases hsess : a.session with
  | single =>
    have hts := ht slot (by simp [mkAlloc, Alloc.slots, hsess])
    have hds := hd slot (by simp [mkAlloc, Alloc.slots, hsess])
    have hcs := hc slot (by simp [mkAlloc, Alloc.slots, hsess])
    simp only [mkAlloc] at hts hds hcs
    simp [occupy, hsess, set_availability_rollback hts,
      set_availability_rollback hds, set_availability_rollback hcs]
  | double =>
    have hts := ht slot (by simp [mkAlloc, Alloc.slots, hsess])
    have hds := hd slot (by simp [mkAlloc, Alloc.slots, hsess])
    have hcs := hc slot (by simp [mkAlloc, Alloc.slots, hsess])
    have hts2 := ht (slot + WORKDAY_COUNT) (by simp [mkAlloc, Alloc.slots, hsess])
    have hds2 := hd (slot + WORKDAY_COUNT) (by simp [mkAlloc, Alloc.slots, hsess])
    have hcs2 := hc (slot + WORKDAY_COUNT) (by simp [mkAlloc, Alloc.slots, hsess])
    simp only [mkAlloc] at hts hds hcs hts2 hds2 hcs2
    simp [occupy, hsess, set_rollback_double hts hts2,
      set_rollback_double hds hds2, set_rollback_double hcs hcs2]

/-- Every slot a placement occupies reads busy after the marking block. -/
theorem occupy_busy (st : AvailState) (a : Assign) (slot room_id : Nat) :
    ∀ s ∈ (mkAlloc a slot room_id).slots,
      is_available (occupy st a slot room_id false).teachers a.teacher s = false ∧
      is_available (occupy st a slot room_id false).divisions a.division s = false ∧
      is_available (occupy st a slot room_id false).classrooms room_id s = false := by
  intro s hs
  cases hsess : a.session with
  | single =>
    simp only [mkAlloc, Alloc.slots, hsess, List.mem_singleton] at hs
    subst hs
    simp [occupy, hsess, is_available_set_false_self]
  | double =>
    simp only [mkAlloc, Alloc.slots, hsess, List.mem_cons, List.mem_singleton,
      List.not_mem_nil, or_false] at hs
    rcases hs with rfl | rfl
    · refine ⟨?_, ?_, ?_⟩ <;>
        simp only [occupy, hsess] <;>
        rw [is_available_set_ne _ _ (Or.inr (slot_ne_plus_workday s)),
          is_available_set_false_self]
    · refine ⟨?_, ?_, ?_⟩ <;>
        simp [occupy, hsess, is_available_set_false_self]

/-- Availability after the marking block implies availability before it
(teachers table). -/
theorem occupy_false_mono_teachers {st : AvailState} {a : Assign}
    {slot room_id f u : Nat}
    (h : is_available (occupy st a slot room_id false).teachers f u = true) :
    is_available st.teachers f u = true := by
  cases hsess : a.session <;> simp only [occupy, hsess] at h
  · exact is_available_set_false_mono h
  · exact is_available_set_false_mono (is_available_set_false_mono h)

/-- Availability after the marking block implies availability before it
(divisions table). -/
theorem occupy_false_mono_divisions {st : AvailState} {a : Assign}
    {slot room_id f u : Nat}
    (h : is_available (occupy st a slot room_id false).divisions f u = true) :
    is_available st.divisions f u = true := by
  cases hsess : a.session <;> simp only [occupy, hsess] at h
  · exact is_available_set_false_mono h
  · exact is_available_set_false_mono (is_available_set_false_mono h)

/-- Availability after the marking block implies availability before it
(classrooms table). -/
theorem occupy_false_mono_classrooms {st : AvailState} {a : Assign}
    {slot room_id f u : Nat}
    (h : is_available (occupy st a slot room_id false).classrooms f u = true) :
    is_available st.classrooms f u = true := by
  cases hsess : a.session <;> simp only [occupy, hsess] at h
  · exact is_available_set_false_mono h
  · exact is_available_set_false_mono (is_available_set_false_mono h)

/-- A placement free after the marking block was free before it. -/
theorem AllocFree_occupy_false_mono {st : AvailState} {a : Assign}
    {slot room_id : Nat} {p : Alloc}
    (h : AllocFree (occupy st a slot room_id false) p) : AllocFree st p := by
  obtain ⟨ht, hd, hc⟩ := h
  exact ⟨fun s hs => occupy_false_mono_teachers (ht s hs),
    fun s hs => occupy_false_mono_divisions (hd s hs),
    fun s hs => occupy_false_mono_classrooms (hc s hs)⟩



/-- Characterization of the candidate list for a SINGLE session. -/
theorem mem_candidate_slots_single {a : Assign} {st : AvailState}
    {cur : List Alloc} {v : Bool} {slot room_id : Nat}
    (hsess : a.session = .single) :
    (v, slot, room_id) ∈ candidate_slots a st cur ↔
      (slot < TIME_SLOTS ∧
        is_available st.teachers a.teacher slot = true ∧
        is_available st.divisions a.division slot = true ∧
        room_id ∈ st.classrooms.ids ∧
        is_available st.classrooms room_id slot = true ∧
        v = same_subject_in_day_exists a.division a.subject slot a.session cur) := by
  simp only [candidate_slots, hsess, List.mem_flatMap, List.mem_range,
    List.mem_ite_nil_left, Bool.not_eq_true', Bool.not_eq_false,
    List.mem_singleton, Prod.mk.injEq]
  constructor
  · rintro ⟨slot', hslot', h1, h2, room', hroom', h3, rfl, rfl, rfl⟩
    exact ⟨hslot', h1, h2, hroom', h3, rfl⟩
  · rintro ⟨hslot, h1, h2, hroom, h3, rfl⟩
    exact ⟨slot, hslot, h1, h2, room_id, hroom, h3, rfl, rfl, rfl⟩



/-- Characterization of the candidate list for a DOUBLE session: exactly the
first-of-day-pair slots whose paired slot is on the grid, with teacher,
division and room free at both slots. -/
theorem mem_candidate_slots_double {a : Assign} {st : AvailState}
    {cur : List Alloc} {v : Bool} {slot room_id : Nat}
    (hsess : a.session = .double) :
    (v, slot, room_id) ∈ candidate_slots a st cur ↔
      ((slot / WORKDAY_COUNT) % 2 = 0 ∧ slot + WORKDAY_COUNT < TIME_SLOTS ∧
        is_available st.teachers a.teacher slot = true ∧
        is_available st.teachers a.teacher (slot + WORKDAY_COUNT) = true ∧
        is_available st.divisions a.division slot = true ∧
        is_available st.divisions a.division (slot + WORKDAY_COUNT) = true ∧
        room_id ∈ st.classrooms.ids ∧
        is_available st.classrooms room_id slot = true ∧
        is_available st.classrooms room_id (slot + WORKDAY_COUNT) = true ∧
        v = same_subject_in_day_exists a.division a.subject slot a.session cur) := by
  simp only [candidate_slots, hsess, List.mem_flatMap, List.mem_range,
    List.mem_ite_nil_left, Bool.not_eq_true', Bool.not_eq_false,
    Bool.or_eq_true, Bool.not_eq_true, beq_eq_false_iff_ne, decide_eq_true_eq,
    not_or, not_le, Bool.and_eq_true, List.mem_singleton, Prod.mk.injEq, ne_eq]
  constructor
  · rintro ⟨slot', hslot', h1, h2, ⟨hpair, hbound⟩, h3, h4, room', hroom',
      ⟨h5, h6⟩, rfl, rfl, rfl⟩
    exact ⟨by omega, hbound, h1, h3, h2, h4, hroom', h5, h6, rfl⟩
  · rintro ⟨hpair, hbound, h1, h3, h2, h4, hroom, h5, h6, rfl⟩
    exact ⟨slot, by omega, h1, h2, ⟨by omega, hbound⟩, h3, h4, room_id, hroom,
      ⟨h5, h6⟩, rfl, rfl, rfl⟩



/-- Sorting by the soft-violation flag neither adds nor drops candidates. -/
theorem mem_sortByFlag {c : Bool × Nat × Nat} {l : List (Bool × Nat × Nat)} :
    c ∈ sortByFlag l ↔ c ∈ l := by
  obtain ⟨v, s, r⟩ := c
  cases v <;> simp [sortByFlag, List.mem_append, List.mem_filter]

/-- Every generated candidate's slots are free for its teacher, division and
room in the state the candidates were generated from. -/
theorem candidate_free {a : Assign} {st : AvailState} {cur : List Alloc}
    {v : Bool} {slot room_id : Nat}
    (h : (v, slot, room_id) ∈ candidate_slots a st cur) :
    AllocFree st (mkAlloc a slot room_id) := by
  cases hsess : a.session
  · rw [mem_candidate_slots_single hsess] at h
    obtain ⟨-, h1, h2, -, h3, -⟩ := h
    refine ⟨?_, ?_, ?_⟩ <;> intro s hs <;>
      simp only [mkAlloc, Alloc.slots, hsess, List.mem_singleton] at hs ⊢ <;>
      subst hs <;> assumption
  · rw [mem_candidate_slots_double hsess] at h
    obtain ⟨-, -, h1, h1b, h2, h2b, -, h3, h3b, -⟩ := h
    refine ⟨?_, ?_, ?_⟩ <;> intro s hs <;>
      simp only [mkAlloc, Alloc.slots, hsess, List.mem_cons, List.mem_singleton,
        List.not_mem_nil, or_false] at hs ⊢ <;>
      rcases hs with rfl | rfl <;> assumption

/-- An exception accumulator passes through the candidate loop unchanged. -/
theorem foldl_cand_step_error (a : Assign)
    (rec : AvailState → List Alloc → Nat → TAResult) (cur : List Alloc)
    (l : List (Bool × Nat × Nat)) (e : PyExc) :
    l.foldl (cand_step a rec cur) (.error e) = .error e := by
  induction l with
  | nil => rfl
  | cons c t ih => simpa [cand_step] using ih

/-- A success accumulator passes through the candidate loop unchanged. -/
theorem foldl_cand_step_some (a : Assign)
    (rec : AvailState → List Alloc → Nat → TAResult) (cur : List Alloc)
    (l : List (Bool × Nat × Nat)) (r : List Alloc) (st : AvailState) (n : Nat) :
    l.foldl (cand_step a rec cur) (.ok (some r, st, n)) = .ok (some r, st, n) := by
  induction l with
  | nil => rfl
  | cons c t ih => simpa [cand_step] using ih

/-- If every candidate of the loop fails, the loop hands back exactly the
state it started from: each iteration marks, recurses, and rolls the marked
slots back (the recursive call itself restoring its input state). -/
theorem loop_none_restores {a : Assign}
    {rec : AvailState → List Alloc → Nat → TAResult}
    (hrec : ∀ st1 cur1 n1 st2 n2, rec st1 cur1 n1 = .ok (none, st2, n2) → st2 = st1)
    (cur : List Alloc) :
    ∀ (l : List (Bool × Nat × Nat)) (st : AvailState) (n : Nat) {st' : AvailState} {n' : Nat},
      (∀ c ∈ l, AllocFree st (mkAlloc a c.2.1 c.2.2)) →
      l.foldl (cand_step a rec cur) (.ok (none, st, n)) = .ok (none, st', n') →
      st' = st := by
  intro l
  induction l with
  | nil =>
    intro st n st' n' _ h
    simp only [List.foldl_nil, Except.ok.injEq, Prod.mk.injEq] at h
    exact h.2.1.symm
  | cons c t ih =>
    intro st n st' n' hfree h
    obtain ⟨v, slot, room_id⟩ := c
    rw [List.foldl_cons] at h
    simp only [cand_step] at h
    cases hr : rec (occupy st a slot room_id false)
        (cur ++ [mkAlloc a slot room_id]) n with
    | error e =>
      simp only [hr] at h
      rw [foldl_cand_step_error] at h
      exact absurd h (by simp)
    | ok res =>
      obtain ⟨o, st2, n2⟩ := res
      cases o with
      | some r =>
        simp only [hr] at h
        rw [foldl_cand_step_some] at h
        exact absurd h (by simp)
      | none =>
        have hst2 : st2 = occupy st a slot room_id false := hrec _ _ _ _ _ hr
        subst hst2
        simp only [hr] at h
        rw [occupy_rollback (hfree _ (List.mem_cons_self _ _))] at h
        exact ih st n2 (fun d hd => hfree d (List.mem_cons_of_mem _ hd)) h



/-- A failing `try_allocate` call hands the three availability snapshots back
exactly as it received them, at every fuel level. -/
theorem try_allocate_go_none_restores (env : SearchEnv) :
    ∀ (fuel idx : Nat) (st : AvailState) (cur : List Alloc) (n : Nat)
      {st' : AvailState} {n' : Nat},
      try_allocate_go env fuel idx st cur n = .ok (none, st', n') → st' = st := by
  intro fuel
  induction fuel with
  | zero =>
    intro idx st cur n st' n' h
    simp only [try_allocate_go, Except.ok.injEq, Prod.mk.injEq] at h
    exact h.2.1.symm
  | succ fuel ih =>
    intro idx st cur n st' n' h
    simp only [try_allocate_go] at h
    split at h
    · exact absurd h (by simp)
    · split at h
      · refine loop_none_restores
          (fun st1 cur1 n1 st2 n2 hh => ih (idx + 1) st1 cur1 n1 hh) cur _ st (n + 1)
          ?_ h
        intro c hc
        obtain ⟨v, slot, room_id⟩ := c
        exact candidate_free (mem_sortByFlag.mp hc)
      · exact absurd h (by simp)



/-- A successful pass of the candidate loop yields a clash-free placement
list whose placements were all free on loop entry, of length one more than
the recursive tail's placements. -/
theorem loop_some_invariant {a : Assign}
    {rec : AvailState → List Alloc → Nat → TAResult} {K : Nat}
    (hrn : ∀ st1 cur1 n1 st2 n2, rec st1 cur1 n1 = .ok (none, st2, n2) → st2 = st1)
    (hrs : ∀ st1 cur1 n1 r0 st2 n2, rec st1 cur1 n1 = .ok (some r0, st2, n2) →
      List.Pairwise no_resource_clash r0 ∧ (∀ p ∈ r0, AllocFree st1 p) ∧ r0.length = K)
    (cur : List Alloc) :
    ∀ (l : List (Bool × Nat × Nat)) (st : AvailState) (n : Nat)
      {r : List Alloc} {st' : AvailState} {n' : Nat},
      (∀ c ∈ l, AllocFree st (mkAlloc a c.2.1 c.2.2)) →
      l.foldl (cand_step a rec cur) (.ok (none, st, n)) = .ok (some r, st', n') →
      List.Pairwise no_resource_clash r ∧ (∀ p ∈ r, AllocFree st p) ∧
        r.length = K + 1 := by
  intro l
  induction l with
  | nil =>
    intro st n r st' n' _ h
    exact absurd h (by simp)
  | cons c t ih =>
    intro st n r st' n' hfree h
    obtain ⟨v, slot, room_id⟩ := c
    rw [List.foldl_cons] at h
    simp only [cand_step] at h
    cases hr : rec (occupy st a slot room_id false)
        (cur ++ [mkAlloc a slot room_id]) n with
    | error e =>
      simp only [hr] at h
      rw [foldl_cand_step_error] at h
      exact absurd h (by simp)
    | ok res =>
      obtain ⟨o, st2, n2⟩ := res
      cases o with
      | some r0 =>
        simp only [hr] at h
        rw [foldl_cand_step_some] at h
        have hre : r = r0 ++ [mkAlloc a slot room_id] := by
          simp only [Except.ok.injEq, Prod.mk.injEq, Option.some.injEq] at h
          exact h.1.symm
        obtain ⟨hp, hf, hlen⟩ := hrs _ _ _ _ _ _ hr
        have hfreeC : AllocFree st (mkAlloc a slot room_id) :=
          hfree _ (List.mem_cons_self _ _)
        subst hre
        refine ⟨?_, ?_, by simp [hlen]⟩
        · rw [List.pairwise_append]
          refine ⟨hp, List.pairwise_singleton _ _, ?_⟩
          intro p hp0 q hq
          rw [List.mem_singleton] at hq
          subst hq
          have hbusy := occupy_busy st a slot room_id
          obtain ⟨hfpT, hfpD, hfpC⟩ := hf p hp0
          refine ⟨fun hteq s hs hq => ?_, fun hdeq s hs hq => ?_,
            fun hreq s hs hq => ?_⟩
          · have hb := (hbusy s hq).1
            have ha := hfpT s hs
            rw [hteq] at ha
            simp only [mkAlloc] at ha
            rw [ha] at hb
            cases hb
          · have hb := (hbusy s hq).2.1
            have ha := hfpD s hs
            rw [hdeq] at ha
            simp only [mkAlloc] at ha
            rw [ha] at hb
            cases hb
          · have hb := (hbusy s hq).2.2
            have ha := hfpC s hs
            rw [hreq] at ha
            simp only [mkAlloc] at ha
            rw [ha] at hb
            cases hb
        · intro p hp0
          rcases List.mem_append.mp hp0 with hp1 | hp1
          · exact AllocFree_occupy_false_mono (hf p hp1)
          · rw [List.mem_singleton] at hp1
            subst hp1
            exact hfreeC
      | none =>
        have hst2 : st2 = occupy st a slot room_id false := hrn _ _ _ _ _ hr
        subst hst2
        simp only [hr] at h
        rw [occupy_rollback (hfree _ (List.mem_cons_self _ _))] at h
        exact ih st n2 (fun d hd => hfree d (List.mem_cons_of_mem _ hd)) h

/-- A successful `try_allocate` call returns a clash-free placement list of
placements that were available in the entry state, exactly one per
assignment still to place. -/
theorem try_allocate_go_some_invariant (env : SearchEnv) :
    ∀ (fuel idx : Nat) (st : AvailState) (cur : List Alloc) (n : Nat)
      {r : List Alloc} {st' : AvailState} {n' : Nat},
      try_allocate_go env fuel idx st cur n = .ok (some r, st', n') →
      List.Pairwise no_resource_clash r ∧ (∀ p ∈ r, AllocFree st p) ∧
        r.length = env.assignments.length - idx := by
  intro fuel
  induction fuel with
  | zero =>
    intro idx st cur n r st' n' h
    exact absurd h (by simp [try_allocate_go])
  | succ fuel ih =>
    intro idx st cur n r st' n' h
    simp only [try_allocate_go] at h
    split at h
    · exact absurd h (by simp)
    · split at h
      · rename_i hlt
        have hmain := loop_some_invariant
          (fun st1 cur1 n1 st2 n2 hh =>
            try_allocate_go_none_restores env fuel (idx + 1) st1 cur1 n1 hh)
          (fun st1 cur1 n1 r0 st2 n2 hh => ih (idx + 1) st1 cur1 n1 hh)
          cur _ st (n + 1) ?_ h
        · obtain ⟨hp, hf, hlen⟩ := hmain
          exact ⟨hp, hf, by omega⟩
        · intro c hc
          obtain ⟨v, slot, room_id⟩ := c
          exact candidate_free (mem_sortByFlag.mp hc)
      · rename_i hge
        simp only [Except.ok.injEq, Prod.mk.injEq, Option.some.injEq] at h
        obtain ⟨hre, hst, hn⟩ := h
        refine ⟨by simp [← hre], by simp [← hre], ?_⟩
        rw [← hre]
        simp only [List.length_nil]
        omega



/-- C2: every successful result of the placement search (`try_allocate`
returning a list of placements) contains no two placements occupying the same
(time_slot, teacher) pair, no two the same (time_slot, division) pair, and no
two the same (time_slot, classroom) pair, where a DOUBLE placement occupies
both `time_slot` and `time_slot + WORKDAY_COUNT`. -/
theorem C2_placement_uniqueness
    (assignment_index : Nat) (assignments : List Assign)
    (teachers classrooms divisions : Table) (current_allocations : List Alloc)
    (start_time timeout : Nat) (clock : Nat → Nat) (n : Nat)
    {r : List Alloc} {st' : AvailState} {n' : Nat}
    (h : try_allocate assignment_index assignments teachers classrooms divisions
      current_allocations start_time timeout clock n = .ok (some r, st', n')) :
    List.Pairwise no_resource_clash r :=
  (try_allocate_go_some_invariant _ _ _ _ _ _ h).1

/-- Witness for C2 at a concrete successful one-session search. -/
theorem C2_placement_uniqueness_witness :
    List.Pairwise no_resource_clash [mkAlloc ⟨1, 2, 3, .single⟩ 0 7] :=
  C2_placement_uniqueness 0 [⟨1, 2, 3, .single⟩] [(1, full_avail)]
    [(7, full_avail)] [(3, full_avail)] [] 0 5000 (fun _ => 0) 1 rfl

/-- C7: whenever `try_allocate` fails for a session instance (returns the
no-schedule outcome `None`), the teacher, classroom and division availability
snapshots are exactly equal to their state on entry to the call. -/
theorem C7_rollback_on_failure
    (assignment_index : Nat) (assignments : List Assign)
    (teachers classrooms divisions : Table) (current_allocations : List Alloc)
    (start_time timeout : Nat) (clock : Nat → Nat) (n : Nat)
    {st' : AvailState} {n' : Nat}
    (h : try_allocate assignment_index assignments teachers classrooms divisions
      current_allocations start_time timeout clock n = .ok (none, st', n')) :
    st'.teachers = teachers ∧ st'.classrooms = classrooms ∧
      st'.divisions = divisions := by
  have hst := try_allocate_go_none_restores _ _ _ _ _ _ h
  rw [hst]
  exact ⟨rfl, rfl, rfl⟩

/-- Witness for C7: a search that fails (the teacher is busy everywhere)
hands back the untouched snapshots. -/
theorem C7_rollback_on_failure_witness :
    (AvailState.mk [(1, no_avail)] [(7, full_avail)] [(3, full_avail)]).teachers
        = [(1, no_avail)] ∧
      (AvailState.mk [(1, no_avail)] [(7, full_avail)] [(3, full_avail)]).classrooms
        = [(7, full_avail)] ∧
      (AvailState.mk [(1, no_avail)] [(7, full_avail)] [(3, full_avail)]).divisions
        = [(3, full_avail)] :=
  C7_rollback_on_failure 0 [⟨1, 2, 3, .single⟩] [(1, no_avail)]
    [(7, full_avail)] [(3, full_avail)] [] 0 5000 (fun _ => 0) 1 rfl

/-- C6: for a DOUBLE session instance, a candidate `(slot, room)` (with its
soft-violation flag) is generated if and only if the slot starts a day-pair
(`(slot / WORKDAY_COUNT) % 2 = 0`), its paired slot is on the grid
(`slot + WORKDAY_COUNT < TIME_SLOTS`), and the teacher, the division and the
room are all free at both `slot` and `slot + WORKDAY_COUNT`; any slot failing
one of these conditions is never tried. -/
theorem C6_double_candidate_generation (a : Assign) (st : AvailState)
    (current_allocations : List Alloc) (v : Bool) (slot room_id : Nat)
    (hsess : a.session = .double) (hroom : room_id ∈ st.classrooms.ids) :
    (v, slot, room_id) ∈ candidate_slots a st current_allocations ↔
      ((slot / WORKDAY_COUNT) % 2 = 0 ∧ slot + WORKDAY_COUNT < TIME_SLOTS ∧
        is_available st.teachers a.teacher slot = true ∧
        is_available st.teachers a.teacher (slot + WORKDAY_COUNT) = true ∧
        is_available st.divisions a.division slot = true ∧
        is_available st.divisions a.division (slot + WORKDAY_COUNT) = true ∧
        is_available st.classrooms room_id slot = true ∧
        is_available st.classrooms room_id (slot + WORKDAY_COUNT) = true ∧
        v = same_subject_in_day_exists a.division a.subject slot a.session
          current_allocations) := by
  rw [mem_candidate_slots_double hsess]
  constructor
  · rintro ⟨h1, h2, h3, h4, h5, h6, -, h7, h8, h9⟩
    exact ⟨h1, h2, h3, h4, h5, h6, h7, h8, h9⟩
  · rintro ⟨h1, h2, h3, h4, h5, h6, h7, h8, h9⟩
    exact ⟨h1, h2, h3, h4, h5, h6, hroom, h7, h8, h9⟩

/-- Witness for C6 at a concrete DOUBLE session and open tables: slot 0 with
room 7 is generated, and the characterization holds. -/
theorem C6_double_candidate_generation_witness :
    (false, 0, 7) ∈ candidate_slots ⟨1, 2, 3, .double⟩
        ⟨[(1, full_avail)], [(7, full_avail)], [(3, full_avail)]⟩ [] ↔
      ((0 / WORKDAY_COUNT) % 2 = 0 ∧ 0 + WORKDAY_COUNT < TIME_SLOTS ∧
        is_available [(1, full_avail)] 1 0 = true ∧
        is_available [(1, full_avail)] 1 (0 + WORKDAY_COUNT) = true ∧
        is_available [(3, full_avail)] 3 0 = true ∧
        is_available [(3, full_avail)] 3 (0 + WORKDAY_COUNT) = true ∧
        is_available [(7, full_avail)] 7 0 = true ∧
        is_available [(7, full_avail)] 7 (0 + WORKDAY_COUNT) = true ∧
        false = same_subject_in_day_exists 3 2 0 SessionType.double []) :=
  C6_double_candidate_generation ⟨1, 2, 3, .double⟩
    ⟨[(1, full_avail)], [(7, full_avail)], [(3, full_avail)]⟩ [] false 0 7
    rfl (by decide)



/-- The session expansion produces, per assignment triple, exactly
`lectures_per_week + labs_per_week` session instances of its subject. -/
theorem expand_assignments_length (db : DBState)
    (asg : List (Nat × Nat × Nat)) :
    (expand_assignments db asg).length =
      (asg.map fun k => lectures_of db k.2.1 + labs_of db k.2.1).sum := by
  simp [expand_assignments, List.length_flatMap, Function.comp_def]

/-- C3: every successful generation persists exactly as many placements as
there are session instances produced by expansion: the sum, over the
assignment triples, of the subject's `lectures_per_week` plus
`labs_per_week`. -/
theorem C3_coverage (db : DBState) (sol : SolverResult)
    (shuffle : List Assign → List Assign) (clock : Nat → Nat) (timeout : Nat)
    (teacher_ids classroom_ids division_ids : Option (List Nat))
    {out : GenerateOutput}
    (hshuffle : ∀ l, (shuffle l).Perm l)
    (h : generate_timetable db sol shuffle clock timeout teacher_ids
      classroom_ids division_ids = .ok (some out)) :
    out.persisted_entries.length =
      (((get_teacher_subject_division_mapping db sol true 0).assignments).map
        fun k => lectures_of db k.2.1 + labs_of db k.2.1).sum := by
  simp only [generate_timetable] at h
  split at h
  · exact absurd h (by simp)
  · exact absurd h (by simp)
  · rename_i allocations st1 n1 htr
    have hout : out =
        ⟨get_teacher_subject_division_mapping db sol true 0, allocations⟩ := by
      simp only [Except.ok.injEq, Option.some.injEq] at h
      exact h.symm
    have hlen := (try_allocate_go_some_invariant _ _ _ _ _ _ htr).2.2
    rw [hout]
    simp only [Nat.sub_zero] at hlen
    rw [hlen, (hshuffle _).length_eq, expand_assignments_length]

/-- Witness for C3: the two-division snapshot generates successfully with
two placements, one per required weekly lecture. -/
theorem C3_coverage_witness :
    (GenerateOutput.mk
        (get_teacher_subject_division_mapping db_two_divisions sol_all true 0)
        [⟨1, 1, 2, 1, 1, .single⟩, ⟨1, 1, 1, 0, 1, .single⟩]).persisted_entries.length =
      (((get_teacher_subject_division_mapping db_two_divisions sol_all true 0).assignments).map
        fun k => lectures_of db_two_divisions k.2.1 + labs_of db_two_divisions k.2.1).sum :=
  C3_coverage db_two_divisions sol_all id (fun _ => 0) 5000 none none none
    (fun l => List.Perm.refl l) rfl



/-- C8: (a) a candidate's soft-violation flag is set exactly when some
already-accumulated placement of the same (division, subject) lies on the
same day class (`slot % WORKDAY_COUNT`); (b) the candidate list is sorted as
a stable partition, every non-violating candidate (in original order)
preceding every violating one (in original order); (c) violating candidates
are still tried: when the loop over the clean prefix fails, the loop
continues over the violating suffix from the very same availability state. -/
theorem C8_soft_violation_ordering :
    (∀ (division_id subject_id slot : Nat) (session_type : SessionType)
        (current_allocations : List Alloc),
      same_subject_in_day_exists division_id subject_id slot session_type
          current_allocations = true ↔
        ∃ p ∈ current_allocations, p.division = division_id ∧
          p.subject = subject_id ∧
          p.slot % WORKDAY_COUNT = slot % WORKDAY_COUNT) ∧
    (∀ l : List (Bool × Nat × Nat),
      (sortByFlag l).Perm l ∧
      ∃ l1 l2, sortByFlag l = l1 ++ l2 ∧ (∀ c ∈ l1, c.1 = false) ∧
        (∀ c ∈ l2, c.1 = true) ∧ l1.Sublist l ∧ l2.Sublist l) ∧
    (∀ (a : Assign) (rec : AvailState → List Alloc → Nat → TAResult)
        (cur : List Alloc) (l1 l2 : List (Bool × Nat × Nat)) (st : AvailState)
        (n n1 : Nat) (st1 : AvailState),
      (∀ s1 c1 m1 s2 m2, rec s1 c1 m1 = .ok (none, s2, m2) → s2 = s1) →
      (∀ c ∈ l1, AllocFree st (mkAlloc a c.2.1 c.2.2)) →
      l1.foldl (cand_step a rec cur) (.ok (none, st, n)) = .ok (none, st1, n1) →
      (l1 ++ l2).foldl (cand_step a rec cur) (.ok (none, st, n)) =
        l2.foldl (cand_step a rec cur) (.ok (none, st, n1))) := by
  refine ⟨?_, ?_, ?_⟩
  · intro division_id subject_id slot session_type current_allocations
    simp [same_subject_in_day_exists, List.any_eq_true, and_assoc]
  · intro l
    constructor
    · simpa [sortByFlag, Bool.not_not] using
        List.filter_append_perm (fun c : Bool × Nat × Nat => !c.1) l
    · refine ⟨l.filter (fun c => !c.1), l.filter (fun c => c.1), rfl, ?_, ?_,
        List.filter_sublist l, List.filter_sublist l⟩
      · intro c hc
        have := (List.mem_filter.mp hc).2
        simpa using this
      · intro c hc
        exact (List.mem_filter.mp hc).2
  · intro a rec cur l1 l2 st n n1 st1 hrec hfree hfold
    rw [List.foldl_append, hfold]
    have hst1 : st1 = st := loop_none_restores hrec cur l1 st n hfree hfold
    rw [hst1]

/-- Witness for C8, each part at a concrete input. -/
theorem C8_soft_violation_ordering_witness :
    (same_subject_in_day_exists 3 2 6 SessionType.single
        [⟨1, 2, 3, 0, 7, .single⟩] = true ↔
      ∃ p ∈ [(⟨1, 2, 3, 0, 7, .single⟩ : Alloc)], p.division = 3 ∧
        p.subject = 2 ∧ p.slot % WORKDAY_COUNT = 6 % WORKDAY_COUNT) ∧
    ((sortByFlag [(true, 0, 7), (false, 1, 7)]).Perm
        [(true, 0, 7), (false, 1, 7)] ∧
      ∃ l1 l2, sortByFlag [(true, 0, 7), (false, 1, 7)] = l1 ++ l2 ∧
        (∀ c ∈ l1, c.1 = false) ∧ (∀ c ∈ l2, c.1 = true) ∧
        l1.Sublist [(true, 0, 7), (false, 1, 7)] ∧
        l2.Sublist [(true, 0, 7), (false, 1, 7)]) ∧
    (([(false, 0, 7)] ++ [(true, 1, 7)]).foldl
        (cand_step ⟨1, 2, 3, .single⟩ (fun s _ m => .ok (none, s, m)) [])
        (.ok (none, ⟨[(1, full_avail)], [(7, full_avail)], [(3, full_avail)]⟩, 1)) =
      [(true, 1, 7)].foldl
        (cand_step ⟨1, 2, 3, .single⟩ (fun s _ m => .ok (none, s, m)) [])
        (.ok (none, ⟨[(1, full_avail)], [(7, full_avail)], [(3, full_avail)]⟩, 1))) :=
  ⟨C8_soft_violation_ordering.1 3 2 6 SessionType.single [⟨1, 2, 3, 0, 7, .single⟩],
    C8_soft_violation_ordering.2.1 [(true, 0, 7), (false, 1, 7)],
    C8_soft_violation_ordering.2.2 ⟨1, 2, 3, .single⟩
      (fun s _ m => .ok (none, s, m)) [] [(false, 0, 7)] [(true, 1, 7)]
      ⟨[(1, full_avail)], [(7, full_avail)], [(3, full_avail)]⟩ 1 1
      ⟨[(1, full_avail)], [(7, full_avail)], [(3, full_avail)]⟩
      (fun s1 c1 m1 s2 m2 hh => by
        simp only [Except.ok.injEq, Prod.mk.injEq] at hh
        exact hh.2.1.symm)
      (by decide) rfl⟩



/-- Counterexample to C4: exceeding the wall-clock budget does not yield a
result value — the run raises `TimeoutError` (modelled as `Except.error`),
which escapes `generate_timetable` (its HTTP caller catches it for a 408). -/
theorem C4_counterexample :
    generate_timetable db_no_pref sol_none id (fun k => k * 1000) 5
      none none none = .error .timeoutErr := rfl

/-- C4 as amended: assignment infeasibility and placement exhaustion are
returned as values (the infeasible statistics record, and `None`), but a
timeout is raised as a `TimeoutError` exception propagating out of
`generate_timetable`, not returned as a result variant. -/
theorem C4_amended :
    (∀ (db : DBState) (sol : SolverResult)
        (shuffle : List Assign → List Assign) (clock : Nat → Nat)
        (timeout : Nat) (t c d : Option (List Nat)),
      timeout ≠ 0 → clock 1 - clock 0 > timeout →
      generate_timetable db sol shuffle clock timeout t c d =
        .error .timeoutErr) ∧
    (∀ (db : DBState) (sol : SolverResult)
        (shuffle : List Assign → List Assign) (clock : Nat → Nat)
        (timeout : Nat) (t c d : Option (List Nat)) (st' : AvailState) (n' : Nat),
      try_allocate 0
          (shuffle (expand_assignments db
            (get_teacher_subject_division_mapping db sol true 0).assignments))
          (get_modifiable_entity_array
            (db.teachers.map fun x => (x.id, x.availability)) t)
          (get_modifiable_entity_array
            (db.classrooms.map fun x => (x.id, x.availability)) c)
          (get_modifiable_entity_array
            (db.divisions.map fun x => (x.id, x.availability)) d)
          [] (clock 0) timeout clock 1 = .ok (none, st', n') →
      generate_timetable db sol shuffle clock timeout t c d = .ok none) := by
  constructor
  · intro db sol shuffle clock timeout t c d ht hc
    simp only [generate_timetable, try_allocate, try_allocate_go, Nat.sub_zero]
    rw [if_pos ⟨ht, hc⟩]
  · intro db sol shuffle clock timeout t c d st' n' h
    simp only [generate_timetable, h]

/-- Witness for C4's amended statement at concrete runs: a clock past the
budget raises, and a teacher busy everywhere yields the `None` value. -/
theorem C4_amended_witness :
    generate_timetable db_no_pref sol_none id (fun k => k * 1000) 5
        none none none = .error .timeoutErr ∧
      generate_timetable
        { db_two_divisions with teachers := [⟨1, 10, no_avail⟩] } sol_all id
        (fun _ => 0) 5000 none none none = .ok none :=
  ⟨C4_amended.1 db_no_pref sol_none id (fun k => k * 1000) 5 none none none
      (by decide) (by decide),
    C4_amended.2 { db_two_divisions with teachers := [⟨1, 10, no_avail⟩] }
      sol_all id (fun _ => 0) 5000 none none none _ _ rfl⟩



/-- Counterexample to C1: with a subject that has zero allowed teachers the
solver status is `'infeasible'` with a reason naming subject 1 and division 1
— yet `generate_timetable` never checks that status: it still runs the
placement search (on the empty assignment list) and persists a fresh, empty
timetable, returning the infeasible statistics. -/
theorem C1_counterexample :
    (get_teacher_subject_division_mapping db_no_pref sol_none true 0).solver_status
        = "infeasible" ∧
      InfeasibilityReason.noTeachers 1 1 ∈
        (get_teacher_subject_division_mapping db_no_pref sol_none true 0).infeasibility_reasons ∧
      generate_timetable db_no_pref sol_none id (fun _ => 0) 5000
          none none none =
        .ok (some ⟨get_teacher_subject_division_mapping db_no_pref sol_none true 0, []⟩) :=
  ⟨rfl, by decide, rfl⟩

/-- C1 as amended: a (subject, division) pair with zero allowed teachers
makes the assignment phase report status `'infeasible'` with a reason naming
that subject and division and an empty assignment list — but
`generate_timetable` does not short-circuit: it runs the placement search on
the empty expansion (which trivially succeeds) and persists an empty
timetable, returning the infeasible output. -/
theorem C1_amended (db : DBState) (sol : SolverResult)
    (shuffle : List Assign → List Assign) (clock : Nat → Nat) (timeout : Nat)
    (t c d : Option (List Nat)) (s0 : SubjectRec) (d0 : DivisionRec)
    (hpair : (s0, d0) ∈ subj_div_pairs db)
    (hempty : allowed_teachers_for_subject db true s0.id = [])
    (hsh : shuffle [] = [])
    (hclk : ¬(timeout ≠ 0 ∧ clock 1 - clock 0 > timeout)) :
    (get_teacher_subject_division_mapping db sol true 0).solver_status
        = "infeasible" ∧
      (get_teacher_subject_division_mapping db sol true 0).assignments = [] ∧
      InfeasibilityReason.noTeachers s0.id d0.id ∈
        (get_teacher_subject_division_mapping db sol true 0).infeasibility_reasons ∧
      generate_timetable db sol shuffle clock timeout t c d =
        .ok (some ⟨get_teacher_subject_division_mapping db sol true 0, []⟩) := by
  have hmem : InfeasibilityReason.noTeachers s0.id d0.id ∈
      pre_solve_reasons db true := by
    refine List.mem_append.mpr (Or.inl ?_)
    refine List.mem_filterMap.mpr ⟨(s0, d0), hpair, ?_⟩
    simp [hempty]
  have hne : pre_solve_reasons db true ≠ [] := List.ne_nil_of_mem hmem
  have hout : get_teacher_subject_division_mapping db sol true 0 =
      { solver_status := "infeasible"
        infeasibility_reasons := pre_solve_reasons db true
        assignments := []
        subject_stats := infeasible_subject_stats db true
        teacher_stats := db.teachers.map fun x =>
          (x.id, ⟨0, x.max_workload, x.max_workload⟩)
        total_satisfaction := 0 } := by
    simp [get_teacher_subject_division_mapping, hne]
  refine ⟨by rw [hout], by rw [hout], by rw [hout]; exact hmem, ?_⟩
  simp only [generate_timetable, hout]
  simp only [expand_assignments, List.flatMap_nil]
  rw [hsh]
  simp only [try_allocate, Nat.sub_zero, try_allocate_go]
  rw [if_neg hclk]
  simp [hout]

/-- Witness for C1's amended statement at the concrete zero-preference
snapshot. -/
theorem C1_amended_witness :
    (get_teacher_subject_division_mapping db_no_pref sol_none true 0).solver_status
        = "infeasible" ∧
      (get_teacher_subject_division_mapping db_no_pref sol_none true 0).assignments = [] ∧
      InfeasibilityReason.noTeachers 1 1 ∈
        (get_teacher_subject_division_mapping db_no_pref sol_none true 0).infeasibility_reasons ∧
      generate_timetable db_no_pref sol_none id (fun _ => 0) 5000
          none none none =
        .ok (some ⟨get_teacher_subject_division_mapping db_no_pref sol_none true 0, []⟩) :=
  C1_amended db_no_pref sol_none id (fun _ => 0) 5000 none none none
    ⟨1, 1, 0⟩ ⟨1, [1], full_avail⟩ (by decide) (by decide) rfl (by decide)



/-- C9: when total teacher capacity is strictly below total required hours
(hours per (subject, division) pair = `lectures_per_week + 2 * labs_per_week`),
the assignment phase short-circuits to status `'infeasible'` with a
capacity-shortfall reason carrying those figures, an empty assignment list,
the per-subject shortage / unused-capacity breakdown, and the solver oracle
is never consulted (the output does not depend on it). -/
theorem C9_capacity_shortfall (db : DBState) (sol : SolverResult)
    (require_preference : Bool) (preference_missing_score : Nat)
    (h : total_available_hours db < total_required_hours db) :
    (get_teacher_subject_division_mapping db sol require_preference
        preference_missing_score).solver_status = "infeasible" ∧
      InfeasibilityReason.capacityShort (total_available_hours db)
          (total_required_hours db) ∈
        (get_teacher_subject_division_mapping db sol require_preference
          preference_missing_score).infeasibility_reasons ∧
      (get_teacher_subject_division_mapping db sol require_preference
        preference_missing_score).assignments = [] ∧
      (get_teacher_subject_division_mapping db sol require_preference
          preference_missing_score).subject_stats =
        infeasible_subject_stats db require_preference ∧
      (∀ s ∈ db.subjects,
        (s.id,
          SubjectStat.mk (hours_per_subject s * divisions_needing db s.id) 0
            (hours_per_subject s * divisions_needing db s.id -
              ((allowed_teachers_for_subject db require_preference s.id).map
                (·.max_workload)).sum)
            (((allowed_teachers_for_subject db require_preference s.id).map
                (·.max_workload)).sum -
              hours_per_subject s * divisions_needing db s.id)
            0 (divisions_needing db s.id)) ∈
          (get_teacher_subject_division_mapping db sol require_preference
            preference_missing_score).subject_stats) ∧
      (∀ sol' : SolverResult,
        get_teacher_subject_division_mapping db sol' require_preference
            preference_missing_score =
          get_teacher_subject_division_mapping db sol require_preference
            preference_missing_score) := by
  have hmem : InfeasibilityReason.capacityShort (total_available_hours db)
      (total_required_hours db) ∈ pre_solve_reasons db require_preference := by
    refine List.mem_append.mpr (Or.inr ?_)
    rw [if_pos h]
    exact List.mem_singleton.mpr rfl
  have hne : pre_solve_reasons db require_preference ≠ [] :=
    List.ne_nil_of_mem hmem
  have hout : ∀ s' : SolverResult,
      get_teacher_subject_division_mapping db s' require_preference
          preference_missing_score =
        { solver_status := "infeasible"
          infeasibility_reasons := pre_solve_reasons db require_preference
          assignments := []
          subject_stats := infeasible_subject_stats db require_preference
          teacher_stats := db.teachers.map fun x =>
            (x.id, ⟨0, x.max_workload, x.max_workload⟩)
          total_satisfaction := 0 } := by
    intro s'
    simp [get_teacher_subject_division_mapping, hne]
  refine ⟨by rw [hout], by rw [hout]; exact hmem, by rw [hout], by rw [hout],
    ?_, fun sol' => (hout sol').trans (hout sol).symm⟩
  intro s hs
  rw [hout]
  exact List.mem_map.mpr ⟨s, hs, rfl⟩

/-- Witness for C9 at the concrete capacity-short snapshot (capacity 1,
demand 2). -/
theorem C9_capacity_shortfall_witness :
    (get_teacher_subject_division_mapping db_capacity_short sol_none true 0).solver_status
        = "infeasible" ∧
      InfeasibilityReason.capacityShort (total_available_hours db_capacity_short)
          (total_required_hours db_capacity_short) ∈
        (get_teacher_subject_division_mapping db_capacity_short sol_none true 0).infeasibility_reasons ∧
      (get_teacher_subject_division_mapping db_capacity_short sol_none true 0).assignments = [] ∧
      (get_teacher_subject_division_mapping db_capacity_short sol_none true 0).subject_stats =
        infeasible_subject_stats db_capacity_short true ∧
      (∀ s ∈ db_capacity_short.subjects,
        (s.id,
          SubjectStat.mk (hours_per_subject s * divisions_needing db_capacity_short s.id) 0
            (hours_per_subject s * divisions_needing db_capacity_short s.id -
              ((allowed_teachers_for_subject db_capacity_short true s.id).map
                (·.max_workload)).sum)
            (((allowed_teachers_for_subject db_capacity_short true s.id).map
                (·.max_workload)).sum -
              hours_per_subject s * divisions_needing db_capacity_short s.id)
            0 (divisions_needing db_capacity_short s.id)) ∈
          (get_teacher_subject_division_mapping db_capacity_short sol_none true 0).subject_stats) ∧
      (∀ sol' : SolverResult,
        get_teacher_subject_division_mapping db_capacity_short sol' true 0 =
          get_teacher_subject_division_mapping db_capacity_short sol_none true 0) :=
  C9_capacity_shortfall db_capacity_short sol_none true 0 (by decide)



/-- Counterexample to C5: with `division_ids = [1]` the divisions
availability table is restricted to division 1, yet the assignment phase —
which reads the whole entity store and ignores the id filters — still emits
the triple `(1, 1, 2)` mentioning the excluded division 2, under the unique
solver solution satisfying the exactly-one constraints. -/
theorem C5_counterexample :
    exactly_one_per_pair db_two_divisions true sol_all ∧
      get_modifiable_entity_array
          (db_two_divisions.divisions.map fun x => (x.id, x.availability))
          (some [1]) = [(1, full_avail)] ∧
      (1, 1, 2) ∈
        (get_teacher_subject_division_mapping db_two_divisions sol_all true 0).assignments ∧
      (2 : Nat) ∉ [1] := by
  refine ⟨by decide, by decide, by decide, by decide⟩

/-- C5 as amended: the id filters restrict only the availability tables
handed to the placement search (a non-empty list keeps exactly the listed
ids, an absent list keeps everything); the assignment phase runs over the
full entity store regardless, so whenever the solver solution satisfies the
exactly-one constraints, every (subject, division) pair of every division —
including divisions outside `division_ids` — is covered by an assignment
triple. -/
theorem C5_amended :
    (∀ (rows : List (Nat × List Bool)) (ids : List Nat) (e : Nat),
      ids ≠ [] →
      (e ∈ Table.ids (get_modifiable_entity_array rows (some ids)) ↔
        e ∈ Table.ids rows ∧ e ∈ ids)) ∧
    (∀ rows : List (Nat × List Bool),
      get_modifiable_entity_array rows none = rows) ∧
    (∀ (db : DBState) (require_preference : Bool) (sol : SolverResult)
        (preference_missing_score : Nat),
      pre_solve_reasons db require_preference = [] →
      exactly_one_per_pair db require_preference sol →
      ∀ sd ∈ subj_div_pairs db, ∃ t,
        (t, sd.1.id, sd.2.id) ∈
          (get_teacher_subject_division_mapping db sol require_preference
            preference_missing_score).assignments) := by
  refine ⟨?_, fun rows => rfl, ?_⟩
  · intro rows ids e hne
    simp only [get_modifiable_entity_array, if_neg hne, Table.ids, List.mem_map,
      List.mem_filter, List.contains_iff_exists_mem_beq, beq_iff_eq]
    constructor
    · rintro ⟨⟨a, b⟩, ⟨hmem, c, hc, rfl⟩, rfl⟩
      exact ⟨⟨(a, b), hmem, rfl⟩, hc⟩
    · rintro ⟨⟨⟨a, b⟩, hmem, rfl⟩, hin⟩
      exact ⟨(a, b), ⟨hmem, ⟨(a, b).1, hin, rfl⟩⟩, rfl⟩
  · intro db require_preference sol preference_missing_score hfeas hone sd hsd
    obtain ⟨t, hta, htt⟩ := List.countP_pos_iff.mp (by rw [hone sd hsd]; omega)
    refine ⟨t.id, ?_⟩
    have hkey : (t.id, sd.1.id, sd.2.id) ∈ decision_keys db require_preference :=
      List.mem_flatMap.mpr ⟨sd, hsd, List.mem_map.mpr ⟨t, hta, rfl⟩⟩
    have hparse : (t.id, sd.1.id, sd.2.id) ∈
        parse_assignments db require_preference sol :=
      List.mem_filter.mpr ⟨hkey, htt⟩
    simpa [get_teacher_subject_division_mapping, hfeas] using hparse

/-- Witness for C5's amended statement: filter behavior at a concrete table,
and coverage of the pair (subject 1, division 2) on the two-division
snapshot. -/
theorem C5_amended_witness :
    ((3 : Nat) ∈ Table.ids (get_modifiable_entity_array
        [(3, full_avail), (4, full_avail)] (some [3])) ↔
      (3 : Nat) ∈ Table.ids [(3, full_avail), (4, full_avail)] ∧ (3 : Nat) ∈ [3]) ∧
      get_modifiable_entity_array [(3, full_avail)] none = [(3, full_avail)] ∧
      (∃ t, (t, 1, 2) ∈
        (get_teacher_subject_division_mapping db_two_divisions sol_all true 0).assignments) :=
  ⟨C5_amended.1 [(3, full_avail), (4, full_avail)] [3] 3 (by decide),
    C5_amended.2.1 [(3, full_avail)],
    C5_amended.2.2 db_two_divisions true sol_all 0 (by decide) (by decide)
      (⟨1, 1, 0⟩, ⟨2, [1], full_avail⟩) (by decide)⟩



/-- Reads beyond either end of a full-length availability string raise
`IndexError`. -/
theorem py_index_read_oob {s : List Bool} {i : Int}
    (hlen : s.length = TIME_SLOTS)
    (h : (TIME_SLOTS : Int) ≤ i ∨ i < -(TIME_SLOTS : Int)) :
    py_index_read s i = none := by
  have hts : TIME_SLOTS = 48 := rfl
  unfold py_index_read
  rcases h with h | h
  · rw [if_pos (by omega : (0 : Int) ≤ i)]
    exact List.get?_eq_none.mpr (by omega)
  · rw [if_neg (by omega : ¬(0 : Int) ≤ i),
      if_neg (by omega : ¬i.natAbs ≤ s.length)]

/-- Writes beyond either end of a full-length availability string raise
`IndexError`. -/
theorem py_index_write_oob {s : List Bool} {i : Int} (v : Bool)
    (hlen : s.length = TIME_SLOTS)
    (h : (TIME_SLOTS : Int) ≤ i ∨ i < -(TIME_SLOTS : Int)) :
    py_index_write s i v = none := by
  have hts : TIME_SLOTS = 48 := rfl
  unfold py_index_write
  rcases h with h | h
  · rw [if_pos (by omega : (0 : Int) ≤ i), if_neg (by omega : ¬i.toNat < s.length)]
  · rw [if_neg (by omega : ¬(0 : Int) ≤ i),
      if_neg (by omega : ¬i.natAbs ≤ s.length)]

/-- A negative in-range index reads the slot `TIME_SLOTS + i`. -/
theorem py_index_read_neg {s : List Bool} {i : Int}
    (hlen : s.length = TIME_SLOTS) (h1 : -(TIME_SLOTS : Int) ≤ i)
    (h2 : i < 0) :
    py_index_read s i = py_index_read s ((TIME_SLOTS : Int) + i) := by
  have hts : TIME_SLOTS = 48 := rfl
  unfold py_index_read
  rw [if_neg (by omega : ¬(0 : Int) ≤ i),
    if_pos (by omega : i.natAbs ≤ s.length),
    if_pos (by omega : (0 : Int) ≤ (TIME_SLOTS : Int) + i)]
  congr 1
  omega

/-- A negative in-range index writes the slot `TIME_SLOTS + i`, and the
write succeeds. -/
theorem py_index_write_neg {s : List Bool} {i : Int} (v : Bool)
    (hlen : s.length = TIME_SLOTS) (h1 : -(TIME_SLOTS : Int) ≤ i)
    (h2 : i < 0) :
    py_index_write s i v = py_index_write s ((TIME_SLOTS : Int) + i) v ∧
      (py_index_write s i v).isSome = true := by
  have hts : TIME_SLOTS = 48 := rfl
  unfold py_index_write
  rw [if_neg (by omega : ¬(0 : Int) ≤ i),
    if_pos (by omega : i.natAbs ≤ s.length),
    if_pos (by omega : (0 : Int) ≤ (TIME_SLOTS : Int) + i),
    if_pos (by omega : ((TIME_SLOTS : Int) + i).toNat < s.length)]
  refine ⟨?_, rfl⟩
  congr 2
  omega

/-- Entity-level read along a found row. -/
theorem is_available_py_eq {df : Table} {entity_id : Nat} {s : List Bool}
    (hl : List.lookup entity_id df = some s) (i : Int) :
    is_available_py df entity_id i = py_index_read s i := by
  simp [is_available_py, hl]

/-- A failing string write makes the entity-level write fail. -/
theorem set_availability_py_none {df : Table} {entity_id : Nat} {s : List Bool}
    (hl : List.lookup entity_id df = some s) {i : Int} {v : Bool}
    (hw : py_index_write s i v = none) :
    set_availability_py df entity_id i v = none := by
  induction df with
  | nil => rfl
  | cons hd t ih =>
    obtain ⟨k, str⟩ := hd
    by_cases hk : k = entity_id
    · subst hk
      have hs : str = s := by simpa [List.lookup] using hl
      subst hs
      simp [set_availability_py, hw]
    · have hl' : List.lookup entity_id t = some s := by
        simpa [List.lookup, beq_eq_false_iff_ne.mpr
          (fun hh => hk hh.symm)] using hl
      simp [set_availability_py, hk, ih hl']

/-- Two string writes that agree make the entity-level writes agree. -/
theorem set_availability_py_congr {df : Table} {entity_id : Nat}
    {s : List Bool} (hl : List.lookup entity_id df = some s) {i j : Int}
    {v : Bool} (hw : py_index_write s i v = py_index_write s j v) :
    set_availability_py df entity_id i v =
      set_availability_py df entity_id j v := by
  induction df with
  | nil => rfl
  | cons hd t ih =>
    obtain ⟨k, str⟩ := hd
    by_cases hk : k = entity_id
    · subst hk
      have hs : str = s := by simpa [List.lookup] using hl
      subst hs
      simp [set_availability_py, hw]
    · have hl' : List.lookup entity_id t = some s := by
        simpa [List.lookup, beq_eq_false_iff_ne.mpr
          (fun hh => hk hh.symm)] using hl
      simp [set_availability_py, hk, ih hl']

/-- A succeeding string write makes the entity-level write succeed. -/
theorem set_availability_py_isSome {df : Table} {entity_id : Nat}
    {s : List Bool} (hl : List.lookup entity_id df = some s) {i : Int}
    {v : Bool} (hw : (py_index_write s i v).isSome = true) :
    (set_availability_py df entity_id i v).isSome = true := by
  induction df with
  | nil => simp [List.lookup] at hl
  | cons hd t ih =>
    obtain ⟨k, str⟩ := hd
    by_cases hk : k = entity_id
    · subst hk
      have hs : str = s := by simpa [List.lookup] using hl
      subst hs
      simpa [set_availability_py, Option.isSome_map] using hw
    · have hl' : List.lookup entity_id t = some s := by
        simpa [List.lookup, beq_eq_false_iff_ne.mpr
          (fun hh => hk hh.symm)] using hl
      simpa [set_availability_py, hk, Option.isSome_map] using ih hl'



/-- Counterexample to C10: slot `-1` lies outside `[0, TIME_SLOTS)`, yet the
Python accessors neither fault nor refuse it — the read returns a value and
the write silently mutates slot 47 (negative indexing). -/
theorem C10_counterexample :
    ¬((0 : Int) ≤ -1 ∧ (-1 : Int) < (TIME_SLOTS : Int)) ∧
      is_available_py [(1, full_avail)] 1 (-1) = some true ∧
      set_availability_py [(1, full_avail)] 1 (-1) false =
        some [(1, full_avail.set 47 false)] :=
  ⟨by decide, by decide, by decide⟩

/-- C10 as amended: an access at a slot `≥ TIME_SLOTS` or `< -TIME_SLOTS`
faults (raises `IndexError`, returning no value and mutating nothing), but a
negative slot in `[-TIME_SLOTS, 0)` is Python negative indexing: it silently
reads or writes the slot `TIME_SLOTS + slot`, and the write succeeds. -/
theorem C10_slot_bounds (df : Table) (entity_id : Nat) (s : List Bool)
    (i : Int) (v : Bool) (hl : List.lookup entity_id df = some s)
    (hlen : s.length = TIME_SLOTS) :
    (((TIME_SLOTS : Int) ≤ i ∨ i < -(TIME_SLOTS : Int)) →
      is_available_py df entity_id i = none ∧
      set_availability_py df entity_id i v = none) ∧
    ((-(TIME_SLOTS : Int) ≤ i ∧ i < 0) →
      is_available_py df entity_id i =
        is_available_py df entity_id ((TIME_SLOTS : Int) + i) ∧
      set_availability_py df entity_id i v =
        set_availability_py df entity_id ((TIME_SLOTS : Int) + i) v ∧
      (set_availability_py df entity_id i v).isSome = true) := by
  constructor
  · intro h
    refine ⟨?_, ?_⟩
    · rw [is_available_py_eq hl, py_index_read_oob hlen h]
    · exact set_availability_py_none hl (py_index_write_oob v hlen h)
  · rintro ⟨h1, h2⟩
    obtain ⟨hw, hsome⟩ := py_index_write_neg v hlen h1 h2
    refine ⟨?_, ?_, ?_⟩
    · rw [is_available_py_eq hl, is_available_py_eq hl,
        py_index_read_neg hlen h1 h2]
    · exact set_availability_py_congr hl hw
    · exact set_availability_py_isSome hl hsome

/-- Witness for C10's amended statement at slot 100 (fault) and slot -1
(alias of 47) on a concrete table. -/
theorem C10_slot_bounds_witness :
    (((TIME_SLOTS : Int) ≤ 100 ∨ (100 : Int) < -(TIME_SLOTS : Int)) →
      is_available_py [(1, full_avail)] 1 100 = none ∧
      set_availability_py [(1, full_avail)] 1 100 false = none) ∧
    ((-(TIME_SLOTS : Int) ≤ 100 ∧ (100 : Int) < 0) →
      is_available_py [(1, full_avail)] 1 100 =
        is_available_py [(1, full_avail)] 1 ((TIME_SLOTS : Int) + 100) ∧
      set_availability_py [(1, full_avail)] 1 100 false =
        set_availability_py [(1, full_avail)] 1 ((TIME_SLOTS : Int) + 100) false ∧
      (set_availability_py [(1, full_avail)] 1 100 false).isSome = true) :=
  C10_slot_bounds [(1, full_avail)] 1 full_avail 100 false rfl rfl


end Schedulify
